import Mathlib

/-!
Shallow embedding of the billing / token-ledger core:
the `consume_tokens` SQL function (supabase/tables/subscriptions.sql),
the Stripe webhook handlers (supabase/functions/handle_stripe_webhook/index.ts),
the token service (supabase/functions/token_service/index.ts) and the
maintenance sweep (supabase/functions/run_subscription_maintenance/index.ts),
together with theorems settling the frozen claims about them.
-/

namespace Liquid

/-- Timestamps. `months` counts calendar months since an epoch
(`year*12 + month`, exactly what JS `Date.setMonth(getMonth()+1)` increments),
`rest` is the position inside the month. Ordering is lexicographic. -/
structure Time where
  months : Int
  rest : Int
deriving DecidableEq, Repr

/-- Boolean order on times (lexicographic, non-strict). -/
def Time.le (a b : Time) : Bool :=
  a.months < b.months || (a.months == b.months && a.rest ≤ b.rest)

/-- Boolean order on times (lexicographic, strict). -/
def Time.lt (a b : Time) : Bool :=
  a.months < b.months || (a.months == b.months && a.rest < b.rest)

/-- JS `d.setMonth(d.getMonth() + 1)` (day of month kept). -/
def addMonth (t : Time) : Time := ⟨t.months + 1, t.rest⟩

/-- JS `d.setFullYear(d.getFullYear() + 1)`. -/
def addYear (t : Time) : Time := ⟨t.months + 12, t.rest⟩

/-- JS `d.setDate(d.getDate() + n)`; within-month positions, no claim below
depends on its month-boundary behaviour. -/
def addDays (n : Int) (t : Time) : Time := ⟨t.months, t.rest + n⟩

/-- Row of `public.user_token_batches`. -/
structure Batch where
  id : String
  user_id : String
  source : String
  subscription_id : Option String := none
  purchase_id : Option String := none
  invoice_id : Option String := none
  amount : Int
  consumed : Int
  consumed_pending : Int := 0
  expires_at : Time
  is_active : Bool
  note : String := ""
deriving DecidableEq, Repr

/-- Row of `public.token_event_logs` (append-only journal). -/
structure TokenEvent where
  user_id : String
  batch_id : String
  delta : Int
  reason : String
deriving DecidableEq, Repr

/-- Row of `public.subscriptions`. -/
structure Subscription where
  id : String
  user_id : String
  plan : String
  billing_cycle : String
  stripe_subscription_id : String
  is_active : Bool
  current_period_end : Time
  payment_failure_reason : Option String := none
  last_monthly_refill : Option Time := none
deriving DecidableEq, Repr

/-- Row of `public.users` (the fields the handlers touch). -/
structure User where
  user_id : String
  has_active_subscription : Bool
  has_payment_issue : Bool
deriving DecidableEq, Repr

/-- Row of `public.referrals`. -/
structure Referral where
  id : String
  referrer_user_id : String
  referred_user_id : String
  is_rewarded : Bool
deriving DecidableEq, Repr

/-- The database state the handlers read and write. -/
structure DbState where
  batches : List Batch
  token_event_logs : List TokenEvent
  subscriptions : List Subscription
  users : List User
  referrals : List Referral
deriving DecidableEq, Repr

/-! ### consume_tokens (supabase/tables/subscriptions.sql, lines 39-92) -/

/-- SQL `amount - consumed - consumed_pending`. -/
def available (b : Batch) : Int := b.amount - b.consumed - b.consumed_pending

/-- SQL WHERE clause of the candidate query:
`user_id = p_user_id AND is_active = TRUE AND (amount - consumed - consumed_pending) > 0`.
Note the source has no `expires_at` condition. -/
def isCandidate (uid : String) (b : Batch) : Bool :=
  b.user_id == uid && b.is_active && decide (0 < available b)

/-- Insert a batch into a list sorted by `expires_at`, before the first
later-expiring entry; ties keep the incoming (table scan) order, since the
SQL orders by `expires_at ASC` alone. -/
def insertByExpiry (b : Batch) : List Batch → List Batch
  | [] => [b]
  | c :: cs => if Time.le b.expires_at c.expires_at then b :: c :: cs else c :: insertByExpiry b cs

/-- SQL `ORDER BY expires_at ASC` as a stable insertion sort. -/
def sortByExpiry : List Batch → List Batch
  | [] => []
  | b :: bs => insertByExpiry b (sortByExpiry bs)

/-- The row set the cursor iterates: `(id, available)` pairs of the user's
candidate batches in expiry order, snapshotted before any update. -/
def candidates (s : DbState) (uid : String) : List (String × Int) :=
  (sortByExpiry (s.batches.filter (isCandidate uid))).map (fun b => (b.id, available b))

/-- Total available over the candidate row set. -/
def totalAvailable (s : DbState) (uid : String) : Int :=
  ((s.batches.filter (isCandidate uid)).map available).sum

/-- One `UPDATE public.user_token_batches SET consumed = consumed + take WHERE id = bid`. -/
def applyTake (bid : String) (take : Int) (bs : List Batch) : List Batch :=
  bs.map (fun b => if b.id == bid then { b with consumed := b.consumed + take } else b)

/-- The PL/pgSQL FOR loop body of `consume_tokens`: walks the snapshotted
row set, takes `LEAST(v_remaining, v_available)` from each batch and logs a
negative journal entry, exiting once the request is filled.
Returns `(v_remaining, v_consumed, state)`. -/
def consumeLoop (uid : String) (reason : String) :
    List (String × Int) → Int → Int → DbState → Int × Int × DbState
  | [], remaining, consumed, s => (remaining, consumed, s)
  | (bid, avail) :: rest, remaining, consumed, s =>
    if remaining ≤ 0 then (remaining, consumed, s)
    else
      consumeLoop uid reason rest
        (remaining - min remaining avail) (consumed + min remaining avail)
        { s with batches := applyTake bid (min remaining avail) s.batches,
                 token_event_logs := s.token_event_logs ++
                   [⟨uid, bid, -(min remaining avail), reason⟩] }

/-- Error raised by `RAISE EXCEPTION 'Insufficient tokens available.
Requested: %, Consumed: %'`. -/
inductive ConsumeError where
  | insufficient (requested consumed : Int)
deriving DecidableEq, Repr

/-- `public.consume_tokens(p_user_id, p_amount, p_reason)`. -/
def consume_tokens (s : DbState) (uid : String) (amount : Int) (reason : String) :
    Except ConsumeError (Int × DbState) :=
  let r := consumeLoop uid reason (candidates s uid) amount 0 s
  if 0 < r.1 then .error (.insufficient amount r.2.1)
  else .ok (r.2.1, r.2.2)

/-- The transactional wrapper: a `RAISE EXCEPTION` inside a Postgres function
aborts the surrounding transaction, so the error branch rolls every update
and journal insert back to the pre-call state. -/
def consumeTokensTx (s : DbState) (uid : String) (amount : Int) (reason : String) :
    Except ConsumeError Int × DbState :=
  match consume_tokens s uid amount reason with
  | .ok (c, s') => (.ok c, s')
  | .error e => (.error e, s)

/-! ### token_service (supabase/functions/token_service/index.ts) -/

/-- Parsed POST body of the token service; `amount = none` models a
non-number `amount` field (the `typeof amount !== 'number'` check). -/
structure TokenRequest where
  user_id : String
  amount : Option Int
  reason : String
deriving DecidableEq, Repr

/-- HTTP response of the token service. -/
inductive TokenResponse where
  | ok (consumed : Int)
  | badRequest
  | serverError
deriving DecidableEq, Repr

/-- The `serve` body of token_service: validate parameters, call the
`consume_tokens` RPC, return 200 `{consumed}` or map the RPC error to 500. -/
def tokenService (s : DbState) (req : TokenRequest) : TokenResponse × DbState :=
  if req.user_id == "" || req.reason == "" then (.badRequest, s)
  else
    match req.amount with
    | none => (.badRequest, s)
    | some amt =>
      match consumeTokensTx s req.user_id amt req.reason with
      | (.ok c, s') => (.ok c, s')
      | (.error _, s') => (.serverError, s')

/-! ### Maintenance sweep (supabase/functions/run_subscription_maintenance/index.ts,
step 0, lines 95-131; same shape in the unnamed cron revision) -/

/-- Step 0 of the cron pass: select active batches with `expires_at < now`
and set `is_active = false` on each. No journal entry is written. -/
def expireSweepBatches (s : DbState) (now : Time) : DbState :=
  { s with batches := s.batches.map (fun b =>
      if b.is_active && Time.lt b.expires_at now then { b with is_active := false } else b) }

/-! ### Payment-failure handlers (handle_stripe_webhook/index.ts) -/

/-- `writeFailureToDb` (lines 1368-1386): sets `is_active = false` and the
failure reason on the subscription row, then flips the user's flags to
`has_active_subscription = false, has_payment_issue = true`. -/
def writeFailureToDb (s : DbState) (uid : String) (localSubId : String) (reason : String) :
    DbState :=
  { s with
    subscriptions := s.subscriptions.map (fun sub =>
      if sub.id == localSubId then
        { sub with is_active := false, payment_failure_reason := some reason }
      else sub),
    users := s.users.map (fun u =>
      if u.user_id == uid then
        { u with has_active_subscription := false, has_payment_issue := true }
      else u) }

/-- The `invoice.payment_failed` case (lines 1800-1874): resolve the Stripe
subscription id (external lookups collapsed into the argument), extract the
failure reason (external, passed in), find the local row, then update only
`payment_failure_reason` on the subscription and only `has_payment_issue`
on the user. -/
def handleInvoicePaymentFailed (s : DbState) (stripeSubId : Option String) (reason : String) :
    DbState :=
  match stripeSubId with
  | none => s
  | some sid =>
    match s.subscriptions.find? (fun sub => sub.stripe_subscription_id == sid) with
    | none => s
    | some localSub =>
      { s with
        subscriptions := s.subscriptions.map (fun sub =>
          if sub.id == localSub.id then { sub with payment_failure_reason := some reason }
          else sub),
        users := s.users.map (fun u =>
          if u.user_id == localSub.user_id then { u with has_payment_issue := true } else u) }

/-- The `payment_intent.payment_failed` case (lines 1878-1934): resolve the
subscription via the payment intent's invoice (external), find the local
row and delegate to `writeFailureToDb`. -/
def handlePaymentIntentFailed (s : DbState) (stripeSubId : Option String) (reason : String) :
    DbState :=
  match stripeSubId with
  | none => s
  | some sid =>
    match s.subscriptions.find? (fun sub => sub.stripe_subscription_id == sid) with
    | none => s
    | some localSub => writeFailureToDb s localSub.user_id localSub.id reason

/-- The `charge.failed` case (lines 1938-1975): resolve the subscription via
the charge's invoice (external), find the local row and delegate to
`writeFailureToDb`. -/
def handleChargeFailed (s : DbState) (stripeSubId : Option String) (reason : String) :
    DbState :=
  match stripeSubId with
  | none => s
  | some sid =>
    match s.subscriptions.find? (fun sub => sub.stripe_subscription_id == sid) with
    | none => s
    | some localSub => writeFailureToDb s localSub.user_id localSub.id reason

/-! ### Referral reward (handle_stripe_webhook/index.ts, lines 1441-1516) -/

/-- `handleReferralReward(referred_user_id)`: skip when the configured
`REFERRAL_TOKEN_AMOUNT` is not positive; find the pending (not yet
rewarded) referral for the referred user; skip when any `source='referral'`
batch for the referrer already exists (the duplicate check filters on
source and referrer only); otherwise insert the one-year reward batch,
mark the referral rewarded and append a positive journal entry.
`newBatchId` stands for the store-generated batch id. -/
def handleReferralReward (s : DbState) (referredId : String) (refAmount : Int)
    (newBatchId : String) (now : Time) : DbState :=
  if refAmount ≤ 0 then s
  else
    match s.referrals.find? (fun r => r.referred_user_id == referredId && !r.is_rewarded) with
    | none => s
    | some r =>
      if (s.batches.find? (fun b => b.source == "referral" && b.user_id == r.referrer_user_id)).isSome
      then s
      else
        let nb : Batch :=
          { id := newBatchId, user_id := r.referrer_user_id, source := "referral",
            amount := refAmount, consumed := 0, consumed_pending := 0,
            expires_at := addDays 365 now, is_active := true,
            note := "Referral: " ++ referredId }
        { s with
          batches := s.batches ++ [nb],
          referrals := s.referrals.map (fun x =>
            if x.id == r.id then { x with is_rewarded := true } else x),
          token_event_logs := s.token_event_logs ++
            [⟨r.referrer_user_id, newBatchId, refAmount, "referral_reward"⟩] }

/-! ### invoice.paid / invoice.payment_succeeded (handle_stripe_webhook/index.ts,
lines 1980-2183) -/

/-- `dbCycleFromStripe` (lines 1081-1085): `day → daily`, `year → yearly`,
anything else (month, week) → `monthly`. -/
def dbCycleFromStripe (i : String) : String :=
  if i == "day" then "daily"
  else if i == "year" then "yearly"
  else "monthly"

/-- `addExpiry` (lines 1088-1094). -/
def addExpiry (t : Time) (cycle : String) : Time :=
  if cycle == "daily" then addDays 1 t
  else if cycle == "monthly" then addMonth t
  else addYear t

/-- Input of the invoice credit handler: the invoice fields it reads plus
the results of its external (Stripe) lookups. -/
structure InvoiceInput where
  id : String
  status : String
  billing_reason : String
  interval : String
  stripeSubId : Option String
  userId : Option String
  priceRow : Option (Int × Option Int)
  linePeriodEnd : Option Time
  subPeriodEnd : Option Time
deriving DecidableEq, Repr

/-- What a handler case ends with: normal completion, an early `break`, or
a thrown error (surfaced as HTTP 500 by the dispatcher). -/
inductive Outcome where
  | ok
  | skipped
  | errored
deriving DecidableEq, Repr

/-- Stamp `last_monthly_refill = now` on the subscription with this Stripe
id (the update keyed on `stripe_subscription_id` at lines 2103-2106). -/
def stampLastRefill (s : DbState) (sid : String) (now : Time) : DbState :=
  { s with subscriptions := s.subscriptions.map (fun sub =>
      if sub.stripe_subscription_id == sid then { sub with last_monthly_refill := some now }
      else sub) }

/-- Clear `payment_failure_reason` on the local subscription row
(lines 2112-2116). -/
def clearFailureReason (s : DbState) (subId : String) : DbState :=
  { s with subscriptions := s.subscriptions.map (fun sub =>
      if sub.id == subId then { sub with payment_failure_reason := none } else sub) }

/-- Set `has_active_subscription = true, has_payment_issue = false` on the
user (lines 2171-2174). -/
def setUserCredited (s : DbState) (uid : String) : DbState :=
  { s with users := s.users.map (fun u =>
      if u.user_id == uid then
        { u with has_active_subscription := true, has_payment_issue := false }
      else u) }

/-- Insert the credit batch carrying the invoice id and append its positive
journal entry (lines 2139-2169). -/
def insertCreditBatch (s : DbState) (uid subId invId : String) (amount : Int)
    (expiresAt : Time) (newBatchId reason note : String) : DbState :=
  { s with
    batches := s.batches ++
      [⟨newBatchId, uid, "subscription", some subId, none, some invId, amount, 0, 0,
        expiresAt, true, note⟩],
    token_event_logs := s.token_event_logs ++ [⟨uid, newBatchId, amount, reason⟩] }

/-- The tail of the `invoice.paid` handler once all guards passed:
expiry computation, yearly stamp, failure-reason clearing, invoice-id
idempotency check, insert, flags, referral. -/
def creditPaidInvoice (refAmount : Int) (s : DbState) (inp : InvoiceInput) (now : Time)
    (newBatchId newReferralBatchId sid uid : String) (tokensToCredit : Int) :
    Outcome × DbState :=
  let firstYearMonth := dbCycleFromStripe inp.interval == "yearly" &&
    (inp.billing_reason == "subscription_create" ||
     inp.billing_reason == "subscription_update")
  let expiresAt := if firstYearMonth then addExpiry now "monthly"
    else (inp.linePeriodEnd <|> inp.subPeriodEnd).getD
      (addExpiry now (dbCycleFromStripe inp.interval))
  let s1 := if firstYearMonth then stampLastRefill s sid now else s
  match s1.subscriptions.find? (fun sub => sub.stripe_subscription_id == sid) with
  | none => (.skipped, s1)
  | some localSub =>
    let s2 := clearFailureReason s1 localSub.id
    if (s2.batches.find? (fun b => b.invoice_id == some inp.id)).isSome then (.skipped, s2)
    else
      let s4 := setUserCredited
        (insertCreditBatch s2 uid localSub.id inp.id tokensToCredit expiresAt newBatchId
          (if inp.billing_reason == "subscription_create" then "subscription_initial_credit"
           else if inp.billing_reason == "subscription_update" then
             "subscription_upgrade_credit"
           else "subscription_refill")
          (if firstYearMonth then "invoice:" ++ inp.id ++ " | first-month-yearly"
           else "Subscription: " ++ sid)) uid
      (.ok, if inp.billing_reason == "subscription_create" then
        handleReferralReward s4 uid refAmount newReferralBatchId now
      else s4)

/-- The `invoice.paid` / `invoice.payment_succeeded` case. Steps, in source
order: require `status = paid`; require a handled billing reason; require a
resolved Stripe subscription id and user; look up the catalog row (throw
when absent); for yearly renewals skip (cron refills); compute the credit
(`monthly_refill_tokens ?? 0` for yearly creation/upgrade, `tokens`
otherwise) and skip when not positive; compute expiry, overriding to
now + 1 month and stamping `last_monthly_refill` for yearly
creation/upgrade; find the local subscription row and clear its failure
reason; skip if a batch for this `invoice_id` already exists; otherwise
insert the batch, append the journal entry, set the user's flags and, on
`subscription_create`, apply the referral reward. -/
def handleInvoicePaid (refAmount : Int) (s : DbState) (inp : InvoiceInput) (now : Time)
    (newBatchId newReferralBatchId : String) : Outcome × DbState :=
  if inp.status != "paid" then (.skipped, s)
  else
    if !(inp.billing_reason == "subscription_create" ||
         inp.billing_reason == "subscription_update" ||
         inp.billing_reason == "subscription_cycle") then (.skipped, s)
    else
      match inp.stripeSubId with
      | none => (.skipped, s)
      | some sid =>
        match inp.userId with
        | none => (.skipped, s)
        | some uid =>
          match inp.priceRow with
          | none => (.errored, s)
          | some (tokens, refill) =>
            if dbCycleFromStripe inp.interval == "yearly" &&
               inp.billing_reason == "subscription_cycle" then (.skipped, s)
            else
              if (if dbCycleFromStripe inp.interval == "yearly" then refill.getD 0
                  else tokens) ≤ 0 then (.skipped, s)
              else
                creditPaidInvoice refAmount s inp now newBatchId newReferralBatchId sid uid
                  (if dbCycleFromStripe inp.interval == "yearly" then refill.getD 0 else tokens)

/-! ### Dispatcher (handle_stripe_webhook/index.ts, serve, lines 1519-2264) -/

/-- A verified, parsed webhook event. -/
structure Event where
  id : String
  type : String
deriving DecidableEq, Repr

/-- `recordEventOnce` (lines 1097-1106): insert into `webhook_events` keyed
by the event id; a unique violation reports a duplicate. -/
def recordEventOnce (events : List String) (eventId : String) : Bool × List String :=
  if events.contains eventId then (false, events) else (true, eventId :: events)

/-- HTTP result of the dispatcher. -/
inductive ServeResult where
  | dup200
  | ok200
  | err500
deriving DecidableEq, Repr

/-- Event-log table plus the ledger database. -/
structure GlobalState where
  events : List String
  db : DbState
deriving DecidableEq, Repr

/-- The post-signature part of `serve`: when the event carries an id, run
the idempotency guard and answer 200 without effects on a duplicate;
otherwise route the event to its handler (the switch body, abstracted as
`handler`, which never touches `webhook_events`) and map a thrown error to
HTTP 500. -/
def serveEvent (handler : Event → DbState → Outcome × DbState) (g : GlobalState) (e : Event) :
    ServeResult × GlobalState :=
  if e.id != "" then
    match recordEventOnce g.events e.id with
    | (false, evs) => (.dup200, { g with events := evs })
    | (true, evs) =>
      let r := handler e g.db
      (if r.1 = .errored then .err500 else .ok200, { events := evs, db := r.2 })
  else
    let r := handler e g.db
    (if r.1 = .errored then .err500 else .ok200, { g with db := r.2 })

/-! ### The per-batch invariant (I1 together with the schema CHECK on
`consumed_pending`) -/

/-- Per-batch bounds: `0 ≤ consumed ≤ amount`, plus the schema CHECK
`consumed_pending ≥ 0` that the consumption bound relies on. -/
def InvP (s : DbState) : Prop :=
  ∀ b ∈ s.batches, 0 ≤ b.consumed ∧ b.consumed ≤ b.amount ∧ 0 ≤ b.consumed_pending

instance : DecidablePred InvP := fun s =>
  List.decidableBAll _ s.batches

/-- Number of `source='referral'` batches a referrer owns (the handler's
duplicate check keys on exactly this pair). -/
def referralBatchCount (s : DbState) (referrer : String) : Nat :=
  s.batches.countP (fun b => b.source == "referral" && b.user_id == referrer)

/-- Invariant of C4: at most one batch per invoice id. -/
def AtMostOneInvoice (s : DbState) : Prop :=
  ∀ inv : String, s.batches.countP (fun b => b.invoice_id == some inv) ≤ 1

/-! ### Concrete states used by witnesses and counterexamples -/

/-- Empty database. -/
def emptyDb : DbState := ⟨[], [], [], [], []⟩

/-- B1 of the FIFO scenario: 10 tokens expiring at T+1s, subscription-sourced. -/
def fifoBatch1 : Batch := ⟨"b1", "u", "subscription", none, none, none, 10, 0, 0, ⟨0, 1⟩, true, ""⟩

/-- B2 of the FIFO scenario: 50 tokens expiring at T+5s, purchase-sourced. -/
def fifoBatch2 : Batch := ⟨"b2", "u", "purchase", none, none, none, 50, 0, 0, ⟨0, 5⟩, true, ""⟩

/-- B3 of the FIFO scenario: 30 tokens expiring at T+2s, referral-sourced. -/
def fifoBatch3 : Batch := ⟨"b3", "u", "referral", none, none, none, 30, 0, 0, ⟨0, 2⟩, true, ""⟩

/-- The FIFO scenario state. -/
def fifoDb : DbState := ⟨[fifoBatch1, fifoBatch2, fifoBatch3], [], [], [], []⟩

/-- Expected state after `consume(40, "api_call")` on `fifoDb`. -/
def fifoDbAfter : DbState :=
  ⟨[{ fifoBatch1 with consumed := 10 }, fifoBatch2, { fifoBatch3 with consumed := 30 }],
   [⟨"u", "b1", -10, "api_call"⟩, ⟨"u", "b3", -30, "api_call"⟩], [], [], []⟩

/-- A single active batch that has already expired at time ⟨0,5⟩. -/
def expiredDb : DbState :=
  ⟨[⟨"b1", "u", "purchase", none, none, none, 10, 0, 0, ⟨0, 0⟩, true, ""⟩], [], [], [], []⟩

/-- State after `consume(5)` drew from the expired batch of `expiredDb`. -/
def expiredDbAfter : DbState :=
  ⟨[⟨"b1", "u", "purchase", none, none, none, 10, 5, 0, ⟨0, 0⟩, true, ""⟩],
   [⟨"u", "b1", -5, "r"⟩], [], [], []⟩

/-- A user with only 3 tokens available. -/
def lowDb : DbState :=
  ⟨[⟨"b1", "u", "purchase", none, none, none, 3, 0, 0, ⟨0, 1⟩, true, ""⟩], [], [], [], []⟩

/-- A user with 10 tokens available. -/
def tenDb : DbState :=
  ⟨[⟨"b1", "u", "purchase", none, none, none, 10, 0, 0, ⟨0, 1⟩, true, ""⟩], [], [], [], []⟩

/-- State after consuming 4 from `tenDb`. -/
def tenDbAfter : DbState :=
  ⟨[⟨"b1", "u", "purchase", none, none, none, 10, 4, 0, ⟨0, 1⟩, true, ""⟩],
   [⟨"u", "b1", -4, "r"⟩], [], [], []⟩

/-- An active subscription in good standing. -/
def dunSub : Subscription := ⟨"s1", "u1", "p", "monthly", "sub_1", true, ⟨0, 10⟩, none, none⟩

/-- State before a payment-failure event: active subscription, healthy user. -/
def dunDb : DbState := ⟨[], [], [dunSub], [⟨"u1", true, false⟩], []⟩

/-- Two pending referrals of the same referrer R for distinct referred users. -/
def refDb : DbState := ⟨[], [], [], [], [⟨"r1", "R", "u1", false⟩, ⟨"r2", "R", "u2", false⟩]⟩

/-- An active batch of 100 with 30 consumed, expired at sweep time ⟨0,5⟩. -/
def sweepDb : DbState :=
  ⟨[⟨"b1", "u", "purchase", none, none, none, 100, 30, 0, ⟨0, 1⟩, true, ""⟩], [], [], [], []⟩

/-- A yearly subscription row with a stale failure reason. -/
def yearlySub : Subscription :=
  ⟨"s1", "u1", "price_y", "yearly", "sub_1", true, ⟨24, 0⟩, some "old_fail", none⟩

/-- State before the first paid invoice of a yearly subscription. -/
def invDb : DbState := ⟨[], [], [yearlySub], [⟨"u1", false, true⟩], []⟩

/-- Paid creation invoice of a yearly plan, catalog row (12000, refill 1000). -/
def invCreate : InvoiceInput :=
  ⟨"in_1", "paid", "subscription_create", "year", some "sub_1", some "u1",
   some (12000, some 1000), none, none⟩

/-- Paid yearly renewal invoice. -/
def invCycle : InvoiceInput :=
  ⟨"in_2", "paid", "subscription_cycle", "year", some "sub_1", some "u1",
   some (12000, some 1000), none, none⟩

/-- State where invoice in_1 was already credited (redelivery scenario). -/
def dupDb : DbState :=
  ⟨[⟨"b0", "u1", "subscription", some "s1", none, some "in_1", 1000, 0, 0, ⟨25, 0⟩, true, ""⟩],
   [], [yearlySub], [⟨"u1", true, false⟩], []⟩

/-- A handler that succeeds without touching the database. -/
def passHandler : Event → DbState → Outcome × DbState := fun _ db => (.ok, db)

/-- Fresh dispatcher state. -/
def gEmpty : GlobalState := ⟨[], emptyDb⟩

/-- A webhook event with an id. -/
def evt1 : Event := ⟨"evt_1", "invoice.paid"⟩

/-! ### Order lemmas on `Time` -/

theorem Time.le_of_not_le {a b : Time} (h : ¬ Time.le a b = true) : Time.le b a = true := by
  simp only [Time.le, Bool.or_eq_true, Bool.and_eq_true, decide_eq_true_eq, beq_iff_eq] at *
  omega

theorem Time.le_trans' {a b c : Time} (h1 : Time.le a b = true) (h2 : Time.le b c = true) :
    Time.le a c = true := by
  simp only [Time.le, Bool.or_eq_true, Bool.and_eq_true, decide_eq_true_eq, beq_iff_eq] at *
  omega

/-! ### Lemmas about the expiry sort -/

theorem insertByExpiry_perm (b : Batch) (l : List Batch) :
    (insertByExpiry b l).Perm (b :: l) := by
  induction l with
  | nil => simp [insertByExpiry]
  | cons c cs ih =>
    rw [insertByExpiry]
    by_cases h : Time.le b.expires_at c.expires_at = true
    · rw [if_pos h]
    · rw [if_neg h]
      exact ((ih.cons c).trans (List.Perm.swap b c cs))

theorem sortByExpiry_perm (l : List Batch) : (sortByExpiry l).Perm l := by
  induction l with
  | nil => rfl
  | cons b bs ih =>
    rw [sortByExpiry]
    exact (insertByExpiry_perm b (sortByExpiry bs)).trans (ih.cons b)

theorem mem_sortByExpiry {x : Batch} {l : List Batch} :
    x ∈ sortByExpiry l ↔ x ∈ l :=
  (sortByExpiry_perm l).mem_iff

theorem pairwise_insertByExpiry {b : Batch} {l : List Batch}
    (h : l.Pairwise (fun x y => Time.le x.expires_at y.expires_at = true)) :
    (insertByExpiry b l).Pairwise (fun x y => Time.le x.expires_at y.expires_at = true) := by
  induction l with
  | nil => simp [insertByExpiry]
  | cons c cs ih =>
    rw [insertByExpiry]
    rcases List.pairwise_cons.mp h with ⟨hc, hcs⟩
    by_cases hle : Time.le b.expires_at c.expires_at = true
    · rw [if_pos hle]
      refine List.pairwise_cons.mpr ⟨?_, h⟩
      intro x hx
      rcases List.mem_cons.mp hx with rfl | hx
      · exact hle
      · exact Time.le_trans' hle (hc x hx)
    · rw [if_neg hle]
      refine List.pairwise_cons.mpr ⟨?_, ih hcs⟩
      intro x hx
      rcases List.mem_cons.mp ((insertByExpiry_perm b cs).mem_iff.mp hx) with rfl | h1
      · exact Time.le_of_not_le hle
      · exact hc x h1

theorem pairwise_sortByExpiry (l : List Batch) :
    (sortByExpiry l).Pairwise (fun x y => Time.le x.expires_at y.expires_at = true) := by
  induction l with
  | nil => simp [sortByExpiry]
  | cons b bs ih =>
    rw [sortByExpiry]
    exact pairwise_insertByExpiry ih

/-! ### Arithmetic of the consumption loop -/

theorem consumeLoop_conserve (uid reason : String) :
    ∀ (cands : List (String × Int)) (r c : Int) (s : DbState),
      (consumeLoop uid reason cands r c s).1 + (consumeLoop uid reason cands r c s).2.1 = r + c := by
  intro cands
  induction cands with
  | nil => intro r c s; simp [consumeLoop]
  | cons p rest ih =>
    intro r c s
    obtain ⟨bid, avail⟩ := p
    rw [consumeLoop]
    by_cases h : r ≤ 0
    · rw [if_pos h]
    · rw [if_neg h]
      have := ih (r - min r avail) (c + min r avail)
        { s with batches := applyTake bid (min r avail) s.batches,
                 token_event_logs := s.token_event_logs ++ [⟨uid, bid, -(min r avail), reason⟩] }
      omega

theorem consumeLoop_remaining (uid reason : String) :
    ∀ (cands : List (String × Int)) (r c : Int) (s : DbState),
      (∀ p ∈ cands, 0 ≤ p.2) → 0 ≤ r →
      (consumeLoop uid reason cands r c s).1 = max (r - (cands.map Prod.snd).sum) 0 := by
  intro cands
  induction cands with
  | nil =>
    intro r c s _ hr
    simp [consumeLoop]
    omega
  | cons p rest ih =>
    intro r c s hpos hr
    obtain ⟨bid, avail⟩ := p
    have hsum : 0 ≤ (rest.map Prod.snd).sum :=
      List.sum_nonneg (by
        intro x hx
        rcases List.mem_map.mp hx with ⟨q, hq, rfl⟩
        exact hpos q (List.mem_cons_of_mem _ hq))
    have hp0 : 0 ≤ avail := hpos (bid, avail) (List.mem_cons_self _ rest)
    rw [consumeLoop]
    by_cases h : r ≤ 0
    · rw [if_pos h]
      simp only [List.map_cons, List.sum_cons]
      omega
    · rw [if_neg h]
      have hrec := ih (r - min r avail) (c + min r avail)
        { s with batches := applyTake bid (min r avail) s.batches,
                 token_event_logs := s.token_event_logs ++ [⟨uid, bid, -(min r avail), reason⟩] }
        (fun q hq => hpos q (List.mem_cons_of_mem _ hq)) (by omega)
      rw [hrec]
      simp only [List.map_cons, List.sum_cons]
      omega

/-! ### The candidate row set -/

theorem candidates_pos (s : DbState) (uid : String) :
    ∀ p ∈ candidates s uid, 0 < p.2 := by
  intro p hp
  rcases List.mem_map.mp hp with ⟨b, hb, rfl⟩
  have hbf : b ∈ s.batches.filter (isCandidate uid) := mem_sortByExpiry.mp hb
  have hc : isCandidate uid b = true := List.of_mem_filter hbf
  simp only [isCandidate, Bool.and_eq_true, decide_eq_true_eq] at hc
  exact hc.2

theorem candidates_snd_sum (s : DbState) (uid : String) :
    ((candidates s uid).map Prod.snd).sum = totalAvailable s uid := by
  unfold candidates totalAvailable
  rw [List.map_map]
  have hperm : ((sortByExpiry (s.batches.filter (isCandidate uid))).map
      (Prod.snd ∘ fun b => (b.id, available b))).Perm
      ((s.batches.filter (isCandidate uid)).map (Prod.snd ∘ fun b => (b.id, available b))) :=
    (sortByExpiry_perm (s.batches.filter (isCandidate uid))).map _
  rw [hperm.sum_eq]
  rfl

theorem totalAvailable_nonneg (s : DbState) (uid : String) :
    0 ≤ totalAvailable s uid := by
  apply List.sum_nonneg
  intro x hx
  rcases List.mem_map.mp hx with ⟨b, hb, rfl⟩
  have hc : isCandidate uid b = true := List.of_mem_filter hb
  simp only [isCandidate, Bool.and_eq_true, decide_eq_true_eq] at hc
  exact le_of_lt hc.2

/-! ### Success and failure shape of consume_tokens -/

theorem consume_tokens_success_value (s : DbState) (uid : String) (amount : Int)
    (reason : String) (c : Int) (s' : DbState) (hnn : 0 ≤ amount)
    (h : consume_tokens s uid amount reason = .ok (c, s')) : c = amount := by
  have hpos : ∀ p ∈ candidates s uid, 0 ≤ p.2 :=
    fun p hp => le_of_lt (candidates_pos s uid p hp)
  have hrem := consumeLoop_remaining uid reason (candidates s uid) amount 0 s hpos hnn
  have hcons := consumeLoop_conserve uid reason (candidates s uid) amount 0 s
  simp only [consume_tokens] at h
  by_cases h01 : 0 < (consumeLoop uid reason (candidates s uid) amount 0 s).1
  · rw [if_pos h01] at h
    exact absurd h (by simp)
  · rw [if_neg h01] at h
    simp only [Except.ok.injEq, Prod.mk.injEq] at h
    have hc : (consumeLoop uid reason (candidates s uid) amount 0 s).2.1 = c := h.1
    omega

theorem consumeTokensTx_ok (s : DbState) (uid : String) (amount : Int) (reason : String)
    (c : Int) (s' : DbState) (h : consumeTokensTx s uid amount reason = (.ok c, s')) :
    consume_tokens s uid amount reason = .ok (c, s') := by
  unfold consumeTokensTx at h
  cases hc : consume_tokens s uid amount reason with
  | ok p =>
    obtain ⟨c1, s1⟩ := p
    rw [hc] at h
    simp only [Prod.mk.injEq, Except.ok.injEq] at h
    rw [h.1, h.2]
  | error e =>
    rw [hc] at h
    exact absurd h (by simp)

/-- Claim C2: in the (only) all-or-nothing mode, when the user's total
available tokens are below the requested amount, `consume_tokens` fails
with the insufficient-tokens error and performs no partial debit: the
raised exception aborts the transaction, so no batch's `consumed` and no
journal row changes — the post-state is exactly the pre-call state. -/
theorem consume_tokens_all_or_nothing (s : DbState) (uid : String) (amount : Int)
    (reason : String) (h : totalAvailable s uid < amount) :
    consumeTokensTx s uid amount reason =
      (.error (.insufficient amount (totalAvailable s uid)), s) := by
  have hT : 0 ≤ totalAvailable s uid := totalAvailable_nonneg s uid
  have hpos : ∀ p ∈ candidates s uid, 0 ≤ p.2 :=
    fun p hp => le_of_lt (candidates_pos s uid p hp)
  have hrem := consumeLoop_remaining uid reason (candidates s uid) amount 0 s hpos (by omega)
  rw [candidates_snd_sum] at hrem
  have hcons := consumeLoop_conserve uid reason (candidates s uid) amount 0 s
  have h01 : 0 < (consumeLoop uid reason (candidates s uid) amount 0 s).1 := by omega
  have hval : (consumeLoop uid reason (candidates s uid) amount 0 s).2.1 =
      totalAvailable s uid := by omega
  have hc : consume_tokens s uid amount reason =
      .error (.insufficient amount (totalAvailable s uid)) := by
    simp only [consume_tokens]
    rw [if_pos h01, hval]
  unfold consumeTokensTx
  rw [hc]

/-- Witness for C2: with 3 tokens available a request of 5 errors and
leaves the state untouched. -/
theorem consume_tokens_all_or_nothing_witness :
    consumeTokensTx lowDb "u" 5 "r" =
      (.error (.insufficient 5 (totalAvailable lowDb "u")), lowDb) :=
  consume_tokens_all_or_nothing lowDb "u" 5 "r" (by decide)

/-! ### Token service success analysis -/

theorem tokenService_ok_inv (s : DbState) (req : TokenRequest) (c : Int) (s' : DbState)
    (h : tokenService s req = (.ok c, s')) :
    ∃ amt, req.amount = some amt ∧ consumeTokensTx s req.user_id amt req.reason = (.ok c, s') := by
  unfold tokenService at h
  by_cases hv : (req.user_id == "" || req.reason == "") = true
  · rw [if_pos hv] at h
    exact absurd h (by simp)
  · rw [if_neg hv] at h
    cases ha : req.amount with
    | none =>
      rw [ha] at h
      exact absurd h (by simp)
    | some amt =>
      rw [ha] at h
      dsimp only at h
      refine ⟨amt, rfl, ?_⟩
      cases hTx : consumeTokensTx s req.user_id amt req.reason with
      | mk e st =>
        cases e with
        | ok c0 =>
          rw [hTx] at h
          dsimp only at h
          simp only [Prod.mk.injEq, TokenResponse.ok.injEq] at h
          rw [h.1, h.2]
        | error e0 =>
          rw [hTx] at h
          exact absurd h (by simp)

/-- Claim C10 (amended): for every nonnegative requested amount a
successful token-service response reports `consumed` equal to the request;
the amendment restricts to nonnegative requests because a negative amount
passes the service's `typeof` check and succeeds returning 0. -/
theorem tokenService_consumed_eq_requested (s : DbState) (req : TokenRequest)
    (amt c : Int) (s' : DbState) (hamt : req.amount = some amt) (hnn : 0 ≤ amt)
    (hok : tokenService s req = (.ok c, s')) : c = amt := by
  obtain ⟨a2, ha2, hTx⟩ := tokenService_ok_inv s req c s' hok
  rw [hamt] at ha2
  injection ha2 with he
  subst he
  exact consume_tokens_success_value s req.user_id amt req.reason c s' hnn
    (consumeTokensTx_ok _ _ _ _ _ _ hTx)

/-- Witness for C10's amended theorem: a request of 4 against 10 available
succeeds and reports exactly 4. -/
theorem tokenService_consumed_eq_requested_witness : (4 : Int) = 4 :=
  tokenService_consumed_eq_requested tenDb ⟨"u", some 4, "r"⟩ 4 4 tenDbAfter
    rfl (by decide) (by decide)

/-- Counterexample for C10 as stated: a request of −5 on an empty ledger
succeeds with HTTP 200 and `consumed = 0`, which differs from the
requested amount. -/
theorem token_service_succeeds_with_negative_amount :
    tokenService emptyDb ⟨"u", some (-5), "r"⟩ = (.ok 0, emptyDb) ∧ (0 : Int) ≠ -5 := by
  constructor
  · decide
  · decide

/-! ### Batches the loop never touches -/

theorem consumeLoop_untouched (uid reason : String) :
    ∀ (cands : List (String × Int)) (r c : Int) (s : DbState) (b : Batch),
      b ∈ s.batches → (∀ p ∈ cands, p.1 ≠ b.id) →
      b ∈ (consumeLoop uid reason cands r c s).2.2.batches := by
  intro cands
  induction cands with
  | nil => intro r c s b hb _; simpa [consumeLoop] using hb
  | cons p rest ih =>
    intro r c s b hb hne
    obtain ⟨bid, avail⟩ := p
    rw [consumeLoop]
    by_cases h : r ≤ 0
    · rw [if_pos h]; exact hb
    · rw [if_neg h]
      apply ih _ _ _ b
      · have hneq : (bid == b.id) = false := by
          have := hne (bid, avail) (List.mem_cons_self _ rest)
          simpa [beq_iff_eq] using this
        have hfix : (if b.id == bid then { b with consumed := b.consumed + min r avail } else b)
            = b := by
          rw [if_neg]
          intro hbe
          rw [beq_iff_eq] at hbe
          simp [hbe, beq_iff_eq] at hneq
        have hmem : (if b.id == bid then { b with consumed := b.consumed + min r avail } else b)
            ∈ applyTake bid (min r avail) s.batches := List.mem_map_of_mem _ hb
        rwa [hfix] at hmem
      · exact fun q hq => hne q (List.mem_cons_of_mem _ hq)

theorem candidates_id_of_mem (s : DbState) (uid : String)
    (hnd : (s.batches.map (fun b => b.id)).Nodup) (b : Batch) (hb : b ∈ s.batches)
    (hnc : isCandidate uid b = false) :
    ∀ p ∈ candidates s uid, p.1 ≠ b.id := by
  intro p hp
  rcases List.mem_map.mp hp with ⟨cb, hcb, rfl⟩
  have hcbf : cb ∈ s.batches.filter (isCandidate uid) := mem_sortByExpiry.mp hcb
  have hcbm : cb ∈ s.batches := List.mem_of_mem_filter hcbf
  have hcbc : isCandidate uid cb = true := List.of_mem_filter hcbf
  intro hid
  have hcb_b : cb = b := List.inj_on_of_nodup_map hnd hcbm hb hid
  rw [hcb_b] at hcbc
  rw [hcbc] at hnc
  exact Bool.noConfusion hnc

/-- Counterexample for C1 as stated: `consume_tokens` has no non-expired
filter, so a still-active batch whose `expires_at` lies in the past (the
sweep has not run yet) is consumed from. Here the only batch expired at
time ⟨0,0⟩, the call happens at ⟨0,5⟩, and `consume(5)` succeeds by
debiting that expired batch. -/
theorem consume_tokens_draws_from_expired_active_batch :
    Time.lt (⟨0, 0⟩ : Time) ⟨0, 5⟩ = true ∧
    consumeTokensTx expiredDb "u" 5 "r" = (.ok 5, expiredDbAfter) := by
  exact ⟨by decide, by rfl⟩

/-- Claim C1 (amended): `consume_tokens` spends FIFO by earliest
`expires_at` (the candidate rows are sorted by `expires_at` alone; ties
keep the table's row order, there is no id tie-break) across the user's
active batches with positive availability regardless of source — expiry is
not checked at consume time, only the `is_active` flag is. Concretely, on
B1{10, T+1s}, B2{50, T+5s}, B3{30, T+2s}, `consume(40)` returns 40, takes
10 from B1 then 30 from B3, leaves B2 untouched, and appends journal
entries −10 on B1 then −30 on B3; moreover a batch that is not an
active positive-availability batch of the calling user survives the call
unchanged. -/
theorem consume_tokens_fifo_amended :
    consumeTokensTx fifoDb "u" 40 "api_call" = (.ok 40, fifoDbAfter) ∧
    (∀ (s : DbState) (uid : String) (amount : Int) (reason : String),
      (s.batches.map (fun b => b.id)).Nodup →
      ∀ b ∈ s.batches, isCandidate uid b = false →
        b ∈ (consumeTokensTx s uid amount reason).2.batches) ∧
    (∀ l : List Batch, (sortByExpiry l).Pairwise
      (fun x y => Time.le x.expires_at y.expires_at = true)) := by
  refine ⟨by rfl, ?_, pairwise_sortByExpiry⟩
  intro s uid amount reason hnd b hb hnc
  have hne := candidates_id_of_mem s uid hnd b hb hnc
  have hloop := consumeLoop_untouched uid reason (candidates s uid) amount 0 s b hb hne
  unfold consumeTokensTx
  cases hc : consume_tokens s uid amount reason with
  | ok p =>
    obtain ⟨c1, s1⟩ := p
    simp only [consume_tokens] at hc
    by_cases h01 : 0 < (consumeLoop uid reason (candidates s uid) amount 0 s).1
    · rw [if_pos h01] at hc
      exact absurd hc (by simp)
    · rw [if_neg h01] at hc
      simp only [Except.ok.injEq, Prod.mk.injEq] at hc
      have hs1 : s1 = (consumeLoop uid reason (candidates s uid) amount 0 s).2.2 := hc.2.symm
      rw [hs1]
      exact hloop
  | error e => exact hb

/-- Witness for C1's amended theorem: on the FIFO state, `fifoBatch2` is
not touched by a consume issued for a different user, and the sort is
ordered. -/
theorem consume_tokens_fifo_amended_witness :
    fifoBatch2 ∈ (consumeTokensTx fifoDb "other" 7 "r").2.batches ∧
    (sortByExpiry [fifoBatch2, fifoBatch3]).Pairwise
      (fun x y => Time.le x.expires_at y.expires_at = true) :=
  ⟨consume_tokens_fifo_amended.2.1 fifoDb "other" 7 "r" (by decide) fifoBatch2 (by decide)
      (by decide),
   consume_tokens_fifo_amended.2.2 [fifoBatch2, fifoBatch3]⟩

theorem consumeLoop_preserves_invP (uid reason : String) :
    ∀ (cands : List (String × Int)) (r c : Int) (s : DbState),
      InvP s →
      (∀ p ∈ cands, 0 < p.2) →
      (∀ p ∈ cands, ∀ b ∈ s.batches, b.id = p.1 → p.2 ≤ available b) →
      (cands.map Prod.fst).Nodup →
      InvP (consumeLoop uid reason cands r c s).2.2 := by
  intro cands
  induction cands with
  | nil => intro r c s h _ _ _; simpa [consumeLoop] using h
  | cons p rest ih =>
    intro r c s h hpos hsnap hnd
    obtain ⟨bid, avail⟩ := p
    rw [consumeLoop]
    by_cases hr : r ≤ 0
    · rw [if_pos hr]; exact h
    · rw [if_neg hr]
      have havail : 0 < avail := hpos (bid, avail) (List.mem_cons_self _ rest)
      have htake : 0 < min r avail := by omega
      have hbidnot : bid ∉ rest.map Prod.fst := (List.nodup_cons.mp hnd).1
      apply ih
      · intro b' hb'
        rcases List.mem_map.mp hb' with ⟨b, hb, rfl⟩
        rcases h b hb with ⟨h1, h2, h3⟩
        by_cases hbe : (b.id == bid) = true
        · rw [if_pos hbe]
          have hble : avail ≤ available b :=
            hsnap (bid, avail) (List.mem_cons_self _ rest) b hb (beq_iff_eq.mp hbe)
          unfold available at hble
          dsimp only
          refine ⟨by omega, by omega, by omega⟩
        · rw [if_neg (by simpa using hbe)]
          exact ⟨h1, h2, h3⟩
      · exact fun q hq => hpos q (List.mem_cons_of_mem _ hq)
      · intro q hq b' hb' hid
        rcases List.mem_map.mp hb' with ⟨b, hb, rfl⟩
        have hqne : q.1 ≠ bid := by
          intro hc
          exact hbidnot (hc ▸ List.mem_map_of_mem Prod.fst hq)
        by_cases hbe : (b.id == bid) = true
        · rw [if_pos hbe] at hid
          dsimp only at hid
          exact absurd (hid.symm.trans (beq_iff_eq.mp hbe)) hqne
        · rw [if_neg (by simpa using hbe)] at hid ⊢
          exact hsnap q (List.mem_cons_of_mem _ hq) b hb hid
      · exact (List.nodup_cons.mp hnd).2

theorem candidates_fst_nodup (s : DbState) (uid : String)
    (hnd : (s.batches.map (fun b => b.id)).Nodup) :
    ((candidates s uid).map Prod.fst).Nodup := by
  have hsub : List.Sublist (s.batches.filter (isCandidate uid)) s.batches :=
    List.filter_sublist _
  have h1 : ((s.batches.filter (isCandidate uid)).map (fun b => b.id)).Nodup :=
    (hsub.map (fun b => b.id)).nodup hnd
  have h2 : ((sortByExpiry (s.batches.filter (isCandidate uid))).map (fun b => b.id)).Perm
      ((s.batches.filter (isCandidate uid)).map (fun b => b.id)) :=
    (sortByExpiry_perm _).map _
  have h3 : ((sortByExpiry (s.batches.filter (isCandidate uid))).map (fun b => b.id)).Nodup :=
    h2.nodup_iff.mpr h1
  unfold candidates
  rw [List.map_map]
  exact h3

theorem candidates_snapshot (s : DbState) (uid : String)
    (hnd : (s.batches.map (fun b => b.id)).Nodup) :
    ∀ p ∈ candidates s uid, ∀ b ∈ s.batches, b.id = p.1 → p.2 ≤ available b := by
  intro p hp b hb hid
  rcases List.mem_map.mp hp with ⟨cb, hcb, rfl⟩
  have hcbf : cb ∈ s.batches.filter (isCandidate uid) := mem_sortByExpiry.mp hcb
  have hcbm : cb ∈ s.batches := List.mem_of_mem_filter hcbf
  have : b = cb := List.inj_on_of_nodup_map hnd hb hcbm hid
  rw [this]

theorem consumeTokensTx_preserves_invP (s : DbState) (uid : String) (amount : Int)
    (reason : String) (hnd : (s.batches.map (fun b => b.id)).Nodup) (h : InvP s) :
    InvP (consumeTokensTx s uid amount reason).2 := by
  have hloop := consumeLoop_preserves_invP uid reason (candidates s uid) amount 0 s h
    (candidates_pos s uid) (candidates_snapshot s uid hnd) (candidates_fst_nodup s uid hnd)
  unfold consumeTokensTx
  cases hc : consume_tokens s uid amount reason with
  | ok p =>
    obtain ⟨c1, s1⟩ := p
    simp only [consume_tokens] at hc
    by_cases h01 : 0 < (consumeLoop uid reason (candidates s uid) amount 0 s).1
    · rw [if_pos h01] at hc
      exact absurd hc (by simp)
    · rw [if_neg h01] at hc
      simp only [Except.ok.injEq, Prod.mk.injEq] at hc
      have hs1 : s1 = (consumeLoop uid reason (candidates s uid) amount 0 s).2.2 := hc.2.symm
      rw [hs1]
      exact hloop
  | error e => exact h

theorem expireSweep_preserves_invP (s : DbState) (now : Time) (h : InvP s) :
    InvP (expireSweepBatches s now) := by
  intro b' hb'
  rcases List.mem_map.mp hb' with ⟨b, hb, rfl⟩
  rcases h b hb with ⟨h1, h2, h3⟩
  by_cases hc : (b.is_active && Time.lt b.expires_at now) = true
  · rw [if_pos hc]; exact ⟨h1, h2, h3⟩
  · rw [if_neg hc]; exact ⟨h1, h2, h3⟩

theorem handleReferralReward_preserves_invP (s : DbState) (u : String) (a : Int)
    (n : String) (t : Time) (h : InvP s) : InvP (handleReferralReward s u a n t) := by
  unfold handleReferralReward
  by_cases h0 : a ≤ 0
  · rw [if_pos h0]; exact h
  · rw [if_neg h0]
    cases hf : s.referrals.find? (fun r => r.referred_user_id == u && !r.is_rewarded) with
    | none => exact h
    | some r =>
      dsimp only
      by_cases hex : (s.batches.find?
          (fun b => b.source == "referral" && b.user_id == r.referrer_user_id)).isSome = true
      · rw [if_pos hex]; exact h
      · rw [if_neg hex]
        intro b hb
        rcases List.mem_append.mp hb with hb | hb
        · exact h b hb
        · have hbe : b = { id := n, user_id := r.referrer_user_id, source := "referral",
                           amount := a, consumed := 0, consumed_pending := 0,
                           expires_at := addDays 365 t, is_active := true,
                           note := "Referral: " ++ u } := by simpa using hb
          rw [hbe]
          dsimp only
          refine ⟨le_refl 0, by omega, le_refl 0⟩

theorem insertCredit_invP (s : DbState) (uid subId invId : String) (tc : Int)
    (exp : Time) (n r note : String) (u2 : String) (htc : 0 < tc) (h : InvP s) :
    InvP (setUserCredited (insertCreditBatch s uid subId invId tc exp n r note) u2) := by
  intro b hb
  rcases List.mem_append.mp hb with hb | hb
  · exact h b hb
  · have hbe : b = ⟨n, uid, "subscription", some subId, none, some invId, tc, 0, 0,
        exp, true, note⟩ := by simpa using hb
    rw [hbe]
    dsimp only
    refine ⟨le_refl 0, by omega, le_refl 0⟩

theorem creditPaidInvoice_preserves_invP (refAmount : Int) (s : DbState) (inp : InvoiceInput)
    (now : Time) (n1 n2 sid uid : String) (tc : Int) (htc : 0 < tc) (h : InvP s) :
    InvP (creditPaidInvoice refAmount s inp now n1 n2 sid uid tc).2 := by
  unfold creditPaidInvoice
  dsimp only
  repeat' split
  all_goals
    first
      | exact h
      | exact insertCredit_invP _ _ _ _ _ _ _ _ _ _ htc h
      | exact handleReferralReward_preserves_invP _ _ _ _ _
          (insertCredit_invP _ _ _ _ _ _ _ _ _ _ htc h)

theorem handleInvoicePaid_preserves_invP (refAmount : Int) (s : DbState) (inp : InvoiceInput)
    (now : Time) (n1 n2 : String) (h : InvP s) :
    InvP (handleInvoicePaid refAmount s inp now n1 n2).2 := by
  unfold handleInvoicePaid
  repeat' split
  all_goals
    first
      | exact h
      | exact creditPaidInvoice_preserves_invP _ _ _ _ _ _ _ _ _ (by omega) h

/-- Claim C3: every embedded ledger operation — granting a batch (the
invoice credit handler and the referral reward), consuming tokens
(`consume_tokens` in its transaction), and expiring a batch (the
maintenance sweep) — preserves `0 ≤ consumed ≤ amount` for every batch of
every user (together with the schema CHECK `consumed_pending ≥ 0` the
consumption bound relies on; the consume case assumes the primary-key
uniqueness of batch ids). -/
theorem ledger_ops_preserve_consumed_bounds :
    (∀ (s : DbState) (uid : String) (amount : Int) (reason : String),
      (s.batches.map (fun b => b.id)).Nodup → InvP s →
      InvP (consumeTokensTx s uid amount reason).2) ∧
    (∀ (s : DbState) (now : Time), InvP s → InvP (expireSweepBatches s now)) ∧
    (∀ (refAmount : Int) (s : DbState) (inp : InvoiceInput) (now : Time) (n1 n2 : String),
      InvP s → InvP (handleInvoicePaid refAmount s inp now n1 n2).2) ∧
    (∀ (s : DbState) (u : String) (a : Int) (n : String) (t : Time),
      InvP s → InvP (handleReferralReward s u a n t)) :=
  ⟨fun s uid amount reason hnd h => consumeTokensTx_preserves_invP s uid amount reason hnd h,
   fun s now h => expireSweep_preserves_invP s now h,
   fun refAmount s inp now n1 n2 h => handleInvoicePaid_preserves_invP refAmount s inp now n1 n2 h,
   fun s u a n t h => handleReferralReward_preserves_invP s u a n t h⟩

/-- Witness for C3: the invariant holds after a concrete consume, sweep,
invoice credit and referral reward. -/
theorem ledger_ops_preserve_consumed_bounds_witness :
    InvP (consumeTokensTx fifoDb "u" 40 "api_call").2 ∧
    InvP (expireSweepBatches sweepDb ⟨0, 5⟩) ∧
    InvP (handleInvoicePaid 0 invDb invCreate ⟨24, 1⟩ "nb1" "nrb1").2 ∧
    InvP (handleReferralReward refDb "u1" 100 "nb1" ⟨0, 0⟩) :=
  ⟨ledger_ops_preserve_consumed_bounds.1 fifoDb "u" 40 "api_call" (by decide) (by decide),
   ledger_ops_preserve_consumed_bounds.2.1 sweepDb ⟨0, 5⟩ (by decide),
   ledger_ops_preserve_consumed_bounds.2.2.1 0 invDb invCreate ⟨24, 1⟩ "nb1" "nrb1" (by decide),
   ledger_ops_preserve_consumed_bounds.2.2.2 refDb "u1" 100 "nb1" ⟨0, 0⟩ (by decide)⟩

/-! ### C8: the expiry sweep and the journal -/

/-- Counterexample for C8 as stated: the sweep deactivates an expired
active batch with `consumed = 30 < 100 = amount`, yet the journal stays
empty — no `delta = −70, reason = expiry` entry is appended by either
revision of the worker. -/
theorem expiry_sweep_appends_no_journal_entry :
    (expireSweepBatches sweepDb ⟨0, 5⟩).batches.map (fun b => b.is_active) = [false] ∧
    Time.lt (⟨0, 1⟩ : Time) ⟨0, 5⟩ = true ∧
    (30 : Int) < 100 ∧
    (expireSweepBatches sweepDb ⟨0, 5⟩).token_event_logs = [] := by
  exact ⟨rfl, by decide, by decide, rfl⟩

/-- Claim C8 (amended): the expiry sweep sets `is_active = false` on every
active batch whose `expires_at` has passed, leaves every other batch field
(id, amount, consumed, expires_at) unchanged, and appends no journal entry
at all — the expired remainder is not accounted for in the journal. -/
theorem expiry_sweep_amended (s : DbState) (now : Time) :
    (expireSweepBatches s now).token_event_logs = s.token_event_logs ∧
    (∀ b ∈ (expireSweepBatches s now).batches, b.is_active = true →
      Time.lt b.expires_at now = false) ∧
    ((expireSweepBatches s now).batches.map (fun b => (b.id, b.amount, b.consumed, b.expires_at))
      = s.batches.map (fun b => (b.id, b.amount, b.consumed, b.expires_at))) := by
  refine ⟨rfl, ?_, ?_⟩
  · intro b hb hact
    rcases List.mem_map.mp hb with ⟨a, ha, rfl⟩
    by_cases hc : (a.is_active && Time.lt a.expires_at now) = true
    · rw [if_pos hc] at hact
      exact absurd hact (by simp)
    · rw [if_neg hc] at hact ⊢
      cases hl : Time.lt a.expires_at now with
      | false => rfl
      | true =>
        rw [hact, hl] at hc
        exact absurd rfl hc
  · unfold expireSweepBatches
    dsimp only
    rw [List.map_map]
    apply List.map_congr_left
    intro a _
    by_cases hc : (a.is_active && Time.lt a.expires_at now) = true
    · rw [Function.comp_apply, if_pos hc]
    · rw [Function.comp_apply, if_neg hc]

/-- Witness for C8's amended theorem at a concrete state: the journal is
untouched and a surviving active batch is non-expired. -/
theorem expiry_sweep_amended_witness :
    (expireSweepBatches fifoDb ⟨0, 0⟩).token_event_logs = fifoDb.token_event_logs ∧
    Time.lt fifoBatch1.expires_at ⟨0, 0⟩ = false :=
  ⟨(expiry_sweep_amended fifoDb ⟨0, 0⟩).1,
   (expiry_sweep_amended fifoDb ⟨0, 0⟩).2.1 fifoBatch1 (by decide) (by decide)⟩

/-! ### C6: payment-failure handlers -/

/-- Counterexample for C6 as stated: `charge.failed` goes through
`writeFailureToDb`, which flips the subscription's `is_active` and the
user's `has_active_subscription` to false instead of leaving them
unchanged. -/
theorem charge_failed_revokes_active_flag :
    (handleChargeFailed dunDb (some "sub_1") "charge: failure_code=card_declined").users
      = [⟨"u1", false, true⟩] ∧
    dunDb.users = [⟨"u1", true, false⟩] ∧
    (handleChargeFailed dunDb (some "sub_1")
        "charge: failure_code=card_declined").subscriptions.map (fun sub => sub.is_active)
      = [false] ∧
    dunDb.subscriptions.map (fun sub => sub.is_active) = [true] := by
  exact ⟨rfl, rfl, rfl, rfl⟩

/-- Claim C6 (amended): every payment-failure handler records the non-null
failure reason and sets `has_payment_issue`; but only
`invoice.payment_failed` leaves `is_active` and `has_active_subscription`
unchanged (dunning grace) — `payment_intent.payment_failed` and
`charge.failed` delegate to `writeFailureToDb`, which also sets
`is_active = false` on the subscription and `has_active_subscription =
false` on the user. -/
theorem payment_failure_handlers_amended (s : DbState) (sid reason : String)
    (localSub : Subscription)
    (hfind : s.subscriptions.find? (fun sub => sub.stripe_subscription_id == sid)
      = some localSub) :
    ((handleInvoicePaymentFailed s (some sid) reason).subscriptions.map
        (fun sub => (sub.id, sub.is_active))
      = s.subscriptions.map (fun sub => (sub.id, sub.is_active))) ∧
    ((handleInvoicePaymentFailed s (some sid) reason).users.map
        (fun u => (u.user_id, u.has_active_subscription))
      = s.users.map (fun u => (u.user_id, u.has_active_subscription))) ∧
    (∀ sub ∈ (handleInvoicePaymentFailed s (some sid) reason).subscriptions,
      sub.id = localSub.id → sub.payment_failure_reason = some reason) ∧
    (∀ u ∈ (handleInvoicePaymentFailed s (some sid) reason).users,
      u.user_id = localSub.user_id → u.has_payment_issue = true) ∧
    (∀ sub ∈ (handlePaymentIntentFailed s (some sid) reason).subscriptions,
      sub.id = localSub.id →
        sub.is_active = false ∧ sub.payment_failure_reason = some reason) ∧
    (∀ u ∈ (handlePaymentIntentFailed s (some sid) reason).users,
      u.user_id = localSub.user_id →
        u.has_active_subscription = false ∧ u.has_payment_issue = true) ∧
    handleChargeFailed s (some sid) reason = handlePaymentIntentFailed s (some sid) reason := by
  unfold handleInvoicePaymentFailed handlePaymentIntentFailed handleChargeFailed writeFailureToDb
  dsimp only
  rw [hfind]
  dsimp only
  refine ⟨?_, ?_, ?_, ?_, ?_, ?_, rfl⟩
  · rw [List.map_map]
    apply List.map_congr_left
    intro a _
    by_cases hc : (a.id == localSub.id) = true
    · rw [Function.comp_apply, if_pos hc]
    · rw [Function.comp_apply, if_neg hc]
  · rw [List.map_map]
    apply List.map_congr_left
    intro a _
    by_cases hc : (a.user_id == localSub.user_id) = true
    · rw [Function.comp_apply, if_pos hc]
    · rw [Function.comp_apply, if_neg hc]
  · intro sub hsub hide
    rcases List.mem_map.mp hsub with ⟨a, ha, rfl⟩
    by_cases hc : (a.id == localSub.id) = true
    · rw [if_pos hc]
    · rw [if_neg hc] at hide ⊢
      exact absurd (beq_iff_eq.mpr hide) (by simpa using hc)
  · intro u hu hide
    rcases List.mem_map.mp hu with ⟨a, ha, rfl⟩
    by_cases hc : (a.user_id == localSub.user_id) = true
    · rw [if_pos hc]
    · rw [if_neg hc] at hide ⊢
      exact absurd (beq_iff_eq.mpr hide) (by simpa using hc)
  · intro sub hsub hide
    rcases List.mem_map.mp hsub with ⟨a, ha, rfl⟩
    by_cases hc : (a.id == localSub.id) = true
    · rw [if_pos hc]
      exact ⟨rfl, rfl⟩
    · rw [if_neg hc] at hide ⊢
      exact absurd (beq_iff_eq.mpr hide) (by simpa using hc)
  · intro u hu hide
    rcases List.mem_map.mp hu with ⟨a, ha, rfl⟩
    by_cases hc : (a.user_id == localSub.user_id) = true
    · rw [if_pos hc]
      exact ⟨rfl, rfl⟩
    · rw [if_neg hc] at hide ⊢
      exact absurd (beq_iff_eq.mpr hide) (by simpa using hc)

/-- Witness for C6's amended theorem on the concrete dunning state. -/
theorem payment_failure_handlers_amended_witness :
    ((handleInvoicePaymentFailed dunDb (some "sub_1") "card_declined").subscriptions.map
        (fun sub => (sub.id, sub.is_active))
      = dunDb.subscriptions.map (fun sub => (sub.id, sub.is_active))) ∧
    ((handleInvoicePaymentFailed dunDb (some "sub_1") "card_declined").users.map
        (fun u => (u.user_id, u.has_active_subscription))
      = dunDb.users.map (fun u => (u.user_id, u.has_active_subscription))) :=
  ⟨(payment_failure_handlers_amended dunDb "sub_1" "card_declined" dunSub (by decide)).1,
   (payment_failure_handlers_amended dunDb "sub_1" "card_declined" dunSub (by decide)).2.1⟩

/-! ### C5: event-level idempotency -/

/-- Claim C5: delivering the same webhook event (with a non-empty id)
twice is idempotent — the second delivery answers 200 "duplicate" and
leaves the entire state exactly as it was after the first delivery. -/
theorem webhook_event_dedup_idempotent
    (handler : Event → DbState → Outcome × DbState) (g : GlobalState) (e : Event)
    (h : e.id ≠ "") :
    serveEvent handler (serveEvent handler g e).2 e = (.dup200, (serveEvent handler g e).2) := by
  have hid : (e.id != "") = true := by simpa using h
  have hdup : ∀ g' : GlobalState, e.id ∈ g'.events →
      serveEvent handler g' e = (.dup200, g') := by
    intro g' hm
    have hc : g'.events.contains e.id = true := List.elem_eq_true_of_mem hm
    unfold serveEvent recordEventOnce
    rw [if_pos hid, if_pos hc]
  have hmem : e.id ∈ (serveEvent handler g e).2.events := by
    unfold serveEvent recordEventOnce
    rw [if_pos hid]
    by_cases hc : g.events.contains e.id = true
    · rw [if_pos hc]
      dsimp only
      exact List.mem_of_elem_eq_true hc
    · rw [if_neg hc]
      dsimp only
      exact List.mem_cons_self _ _
  exact hdup _ hmem

/-- Witness for C5: redelivering a concrete event is answered with
duplicate-200 and no state change. -/
theorem webhook_event_dedup_idempotent_witness :
    serveEvent passHandler (serveEvent passHandler gEmpty evt1).2 evt1
      = (.dup200, (serveEvent passHandler gEmpty evt1).2) :=
  webhook_event_dedup_idempotent passHandler gEmpty evt1 (by decide)

/-! ### C9: referral rewards -/

theorem two_mem_le_countP {α : Type} {l : List α} {p : α → Bool} {a b : α}
    (ha : a ∈ l) (hb : b ∈ l) (hne : a ≠ b) (hpa : p a = true) (hpb : p b = true) :
    2 ≤ l.countP p := by
  induction l with
  | nil => cases ha
  | cons c cs ih =>
    rw [List.countP_cons]
    rcases List.mem_cons.mp ha with rfl | ha'
    · rcases List.mem_cons.mp hb with rfl | hb'
      · exact absurd rfl hne
      · have h1 : 0 < cs.countP p := List.countP_pos_iff.mpr ⟨b, hb', hpb⟩
        rw [if_pos hpa]
        omega
    · rcases List.mem_cons.mp hb with rfl | hb'
      · have h1 : 0 < cs.countP p := List.countP_pos_iff.mpr ⟨a, ha', hpa⟩
        rw [if_pos hpb]
        omega
      · have h2 := ih ha' hb'
        by_cases hpc : p c = true
        · rw [if_pos hpc]; omega
        · rw [if_neg hpc]; omega

/-- Counterexample for C9 as stated: referrer R has two distinct pending
referrals (u1 and u2). Rewarding u1 grants one batch; processing u2
afterwards changes nothing — the duplicate check filters only on
`(source='referral', user_id=referrer)` — so R ends with one reward batch,
not two. -/
theorem second_referred_user_gets_no_reward :
    (refDb.referrals.countP (fun r => r.referred_user_id == "u2" && !r.is_rewarded)) = 1 ∧
    referralBatchCount (handleReferralReward refDb "u1" 100 "nb1" ⟨0, 0⟩) "R" = 1 ∧
    handleReferralReward (handleReferralReward refDb "u1" 100 "nb1" ⟨0, 0⟩) "u2" 100 "nb2" ⟨0, 0⟩
      = handleReferralReward refDb "u1" 100 "nb1" ⟨0, 0⟩ ∧
    referralBatchCount
      (handleReferralReward (handleReferralReward refDb "u1" 100 "nb1" ⟨0, 0⟩) "u2" 100 "nb2"
        ⟨0, 0⟩) "R" ≠ 2 := by
  exact ⟨by decide, by decide, by rfl, by decide⟩

/-- Claim C9 (amended): referral rewards are idempotent on
`(source='referral', referrer_user_id)` — not on the claimed triple with
the referred user. A referrer never accumulates more than one referral
batch, and re-processing the same referred user (whose referral row is
unique) is a no-op; consequently a second distinct referred user of an
already-rewarded referrer yields no additional batch. -/
theorem referral_reward_amended :
    (∀ (s : DbState) (u : String) (a : Int) (n : String) (t : Time) (referrer : String),
      referralBatchCount s referrer ≤ 1 →
      referralBatchCount (handleReferralReward s u a n t) referrer ≤ 1) ∧
    (∀ (s : DbState) (u : String) (a : Int) (n : String) (t : Time) (n' : String) (t' : Time),
      s.referrals.countP (fun r => r.referred_user_id == u) ≤ 1 →
      handleReferralReward (handleReferralReward s u a n t) u a n' t'
        = handleReferralReward s u a n t) := by
  constructor
  · intro s u a n t referrer hle
    unfold handleReferralReward
    by_cases h0 : a ≤ 0
    · rw [if_pos h0]; exact hle
    · rw [if_neg h0]
      cases hf : s.referrals.find? (fun r => r.referred_user_id == u && !r.is_rewarded) with
      | none => exact hle
      | some r =>
        dsimp only
        by_cases hex : (s.batches.find?
            (fun b => b.source == "referral" && b.user_id == r.referrer_user_id)).isSome = true
        · rw [if_pos hex]; exact hle
        · rw [if_neg hex]
          unfold referralBatchCount at hle ⊢
          rw [List.countP_append]
          by_cases hRr : (r.referrer_user_id == referrer) = true
          · have hzero : s.batches.countP
                (fun b => b.source == "referral" && b.user_id == referrer) = 0 := by
              rw [List.countP_eq_zero]
              intro b hb hp
              apply hex
              rw [List.find?_isSome]
              refine ⟨b, hb, ?_⟩
              simp only [Bool.and_eq_true, beq_iff_eq] at hp ⊢
              exact ⟨hp.1, hp.2.trans (beq_iff_eq.mp hRr).symm⟩
            rw [hzero]
            simp [List.countP_cons, beq_iff_eq.mp hRr]
          · have hone : List.countP
                (fun b => b.source == "referral" && b.user_id == referrer)
                [({ id := n, user_id := r.referrer_user_id, source := "referral",
                    amount := a, consumed := 0, consumed_pending := 0,
                    expires_at := addDays 365 t, is_active := true,
                    note := "Referral: " ++ u } : Batch)] = 0 := by
              simp only [List.countP_cons, List.countP_nil]
              rw [if_neg]
              simp only [Bool.and_eq_true]
              intro hc
              exact absurd hc.2 (by simpa using hRr)
            rw [hone]
            omega
  · intro s u a n t n' t' hcount
    by_cases h0 : a ≤ 0
    · have h1 : handleReferralReward s u a n t = s := by
        unfold handleReferralReward; rw [if_pos h0]
      have h2 : handleReferralReward s u a n' t' = s := by
        unfold handleReferralReward; rw [if_pos h0]
      rw [h1, h2]
    · cases hf : s.referrals.find? (fun r => r.referred_user_id == u && !r.is_rewarded) with
      | none =>
        have h1 : handleReferralReward s u a n t = s := by
          unfold handleReferralReward; rw [if_neg h0, hf]
        have h2 : handleReferralReward s u a n' t' = s := by
          unfold handleReferralReward; rw [if_neg h0, hf]
        rw [h1, h2]
      | some r =>
        by_cases hex : (s.batches.find?
            (fun b => b.source == "referral" && b.user_id == r.referrer_user_id)).isSome = true
        · have h1 : handleReferralReward s u a n t = s := by
            unfold handleReferralReward; rw [if_neg h0, hf]; dsimp only; rw [if_pos hex]
          have h2 : handleReferralReward s u a n' t' = s := by
            unfold handleReferralReward; rw [if_neg h0, hf]; dsimp only; rw [if_pos hex]
          rw [h1, h2]
        · have hrmem : r ∈ s.referrals := List.mem_of_find?_eq_some hf
          have hrp := List.find?_some hf
          have hrefs : (handleReferralReward s u a n t).referrals
              = s.referrals.map (fun x =>
                  if x.id == r.id then { x with is_rewarded := true } else x) := by
            unfold handleReferralReward; rw [if_neg h0, hf]; dsimp only; rw [if_neg hex]
          have hnone : (s.referrals.map (fun x =>
              if x.id == r.id then { x with is_rewarded := true } else x)).find?
              (fun x => x.referred_user_id == u && !x.is_rewarded) = none := by
            rw [List.find?_eq_none]
            intro x hx hp
            rcases List.mem_map.mp hx with ⟨y, hy, rfl⟩
            by_cases hyid : (y.id == r.id) = true
            · rw [if_pos hyid] at hp
              simp at hp
            · rw [if_neg hyid] at hp
              have hyne : y ≠ r := by
                intro hc
                rw [hc] at hyid
                simp at hyid
              have hpu : (y.referred_user_id == u) = true := by
                simp only [Bool.and_eq_true] at hp
                exact hp.1
              have hru : (r.referred_user_id == u) = true := by
                simp only [Bool.and_eq_true] at hrp
                exact hrp.1
              have h2 := two_mem_le_countP hy hrmem hyne
                (p := fun x => x.referred_user_id == u) hpu hru
              omega
          conv_lhs => rw [handleReferralReward]
          rw [if_neg h0, hrefs, hnone]

/-- Witness for C9's amended theorem on the concrete referral state. -/
theorem referral_reward_amended_witness :
    referralBatchCount (handleReferralReward refDb "u1" 100 "nb1" ⟨0, 0⟩) "R" ≤ 1 ∧
    handleReferralReward (handleReferralReward refDb "u1" 100 "nb1" ⟨0, 0⟩) "u1" 100 "nb3" ⟨0, 1⟩
      = handleReferralReward refDb "u1" 100 "nb1" ⟨0, 0⟩ :=
  ⟨referral_reward_amended.1 refDb "u1" 100 "nb1" ⟨0, 0⟩ "R" (by decide),
   referral_reward_amended.2 refDb "u1" 100 "nb1" ⟨0, 0⟩ "nb3" ⟨0, 1⟩ (by decide)⟩

/-! ### C4: invoice-level idempotency -/

theorem handleReferralReward_invoice_count (s : DbState) (u : String) (a : Int)
    (n : String) (t : Time) (I : String) :
    (handleReferralReward s u a n t).batches.countP (fun b => b.invoice_id == some I)
      = s.batches.countP (fun b => b.invoice_id == some I) := by
  unfold handleReferralReward
  repeat' split
  all_goals try rfl
  rw [List.countP_append]
  simp [List.countP_cons]

theorem atMostOne_after_insert {bs : List Batch} {invId : String} (I : String)
    (h : ∀ J : String, bs.countP (fun b => b.invoice_id == some J) ≤ 1)
    (hnone : ¬(bs.find? (fun b => b.invoice_id == some invId)).isSome = true)
    (nb : Batch) (hnb : nb.invoice_id = some invId) :
    (bs ++ [nb]).countP (fun b => b.invoice_id == some I) ≤ 1 := by
  rw [List.countP_append, List.countP_cons, List.countP_nil]
  by_cases hI : invId = I
  · subst hI
    have hzero : bs.countP (fun b => b.invoice_id == some invId) = 0 := by
      rw [List.countP_eq_zero]
      intro b hb hp
      exact hnone (by rw [List.find?_isSome]; exact ⟨b, hb, hp⟩)
    rw [hzero, hnb]
    simp
  · rw [hnb]
    have hne : ((some invId : Option String) == some I) = false := by
      simp [hI]
    rw [hne]
    have hle := h I
    simp only [Bool.false_eq_true, if_false]
    omega

theorem creditPaidInvoice_atMostOne (refAmount : Int) (s : DbState) (inp : InvoiceInput)
    (now : Time) (n1 n2 sid uid : String) (tc : Int) (h : AtMostOneInvoice s) :
    AtMostOneInvoice (creditPaidInvoice refAmount s inp now n1 n2 sid uid tc).2 := by
  unfold creditPaidInvoice
  dsimp only
  repeat' split
  all_goals intro I
  all_goals try exact h I
  all_goals dsimp only
  all_goals
    first
      | (rw [handleReferralReward_invoice_count]
         exact atMostOne_after_insert I h (by assumption) _ rfl)
      | exact atMostOne_after_insert I h (by assumption) _ rfl

theorem creditPaidInvoice_not_errored (refAmount : Int) (s : DbState) (inp : InvoiceInput)
    (now : Time) (n1 n2 sid uid : String) (tc : Int) :
    (creditPaidInvoice refAmount s inp now n1 n2 sid uid tc).1 ≠ .errored := by
  unfold creditPaidInvoice
  dsimp only
  repeat' split
  all_goals simp

theorem creditPaidInvoice_dup_batches (refAmount : Int) (s : DbState) (inp : InvoiceInput)
    (now : Time) (n1 n2 sid uid : String) (tc : Int)
    (hdup : (s.batches.find? (fun b => b.invoice_id == some inp.id)).isSome = true) :
    (creditPaidInvoice refAmount s inp now n1 n2 sid uid tc).2.batches = s.batches := by
  unfold creditPaidInvoice
  dsimp only
  repeat' split
  all_goals first
    | rfl
    | exact absurd hdup (by assumption)

/-- Claim C4: (i) the invoice credit handler preserves "at most one batch
per invoice id" for every invoice id — the batch it inserts carries an
invoice id only after the explicit existence check, and the referral batch
carries none; (ii) redelivery for an already-credited invoice (any event
whose `invoice_id` already has a batch, e.g. `invoice.payment_succeeded`
after `invoice.paid`) creates no batch and is never answered as an error,
provided the catalog row still resolves (a missing catalog row throws for
any delivery, first or redelivered). -/
theorem invoice_credit_idempotent_on_invoice_id :
    (∀ (refAmount : Int) (s : DbState) (inp : InvoiceInput) (now : Time) (n1 n2 : String),
      AtMostOneInvoice s → AtMostOneInvoice (handleInvoicePaid refAmount s inp now n1 n2).2) ∧
    (∀ (refAmount : Int) (s : DbState) (inp : InvoiceInput) (now : Time) (n1 n2 : String),
      (s.batches.find? (fun b => b.invoice_id == some inp.id)).isSome = true →
      inp.priceRow ≠ none →
      (handleInvoicePaid refAmount s inp now n1 n2).1 ≠ .errored ∧
      (handleInvoicePaid refAmount s inp now n1 n2).2.batches = s.batches) := by
  constructor
  · intro refAmount s inp now n1 n2 h
    unfold handleInvoicePaid
    repeat' split
    all_goals first
      | exact h
      | exact creditPaidInvoice_atMostOne _ _ _ _ _ _ _ _ _ h
  · intro refAmount s inp now n1 n2 hdup hprice
    unfold handleInvoicePaid
    repeat' split
    all_goals first
      | exact ⟨fun hh => Outcome.noConfusion hh, rfl⟩
      | exact absurd (by assumption : inp.priceRow = none) hprice
      | exact ⟨creditPaidInvoice_not_errored _ _ _ _ _ _ _ _ _,
               creditPaidInvoice_dup_batches _ _ _ _ _ _ _ _ _ hdup⟩

/-- Witness for C4 at concrete inputs: the invariant is preserved on a
fresh credit, and redelivering the already-credited invoice `in_1` is a
2xx no-op on the batch table. -/
theorem invoice_credit_idempotent_on_invoice_id_witness :
    AtMostOneInvoice (handleInvoicePaid 0 invDb invCreate ⟨24, 1⟩ "nb1" "nrb1").2 ∧
    ((handleInvoicePaid 0 dupDb invCreate ⟨24, 1⟩ "nb1" "nrb1").1 ≠ .errored ∧
     (handleInvoicePaid 0 dupDb invCreate ⟨24, 1⟩ "nb1" "nrb1").2.batches = dupDb.batches) :=
  ⟨invoice_credit_idempotent_on_invoice_id.1 0 invDb invCreate ⟨24, 1⟩ "nb1" "nrb1"
      (fun _ => Nat.zero_le 1),
   invoice_credit_idempotent_on_invoice_id.2 0 dupDb invCreate ⟨24, 1⟩ "nb1" "nrb1"
      (by decide) (by decide)⟩

/-! ### C7: yearly credit policy -/

theorem find?_stampLastRefill (s : DbState) (sid : String) (now : Time) :
    (stampLastRefill s sid now).subscriptions.find?
        (fun sub => sub.stripe_subscription_id == sid)
      = (s.subscriptions.find? (fun sub => sub.stripe_subscription_id == sid)).map
          (fun sub => { sub with last_monthly_refill := some now }) := by
  unfold stampLastRefill
  dsimp only
  rw [List.find?_map]
  have hpred : ((fun sub : Subscription => sub.stripe_subscription_id == sid) ∘
      (fun sub => if sub.stripe_subscription_id == sid then
        { sub with last_monthly_refill := some now } else sub))
      = (fun sub => sub.stripe_subscription_id == sid) := by
    funext x
    by_cases hc : (x.stripe_subscription_id == sid) = true
    · simp only [Function.comp_apply, if_pos hc]
    · simp only [Function.comp_apply, if_neg hc]
  rw [hpred]
  cases hx : s.subscriptions.find? (fun sub => sub.stripe_subscription_id == sid) with
  | none => rfl
  | some x =>
    have hpx := List.find?_some hx
    dsimp only [Option.map]
    rw [if_pos hpx]

theorem handleReferralReward_no_pending (X : DbState) (u : String) (a : Int) (n : String)
    (t : Time)
    (h : X.referrals.find? (fun r => r.referred_user_id == u && !r.is_rewarded) = none) :
    handleReferralReward X u a n t = X := by
  unfold handleReferralReward
  by_cases h0 : a ≤ 0
  · rw [if_pos h0]
  · rw [if_neg h0, h]

theorem stamped_refill_set (s : DbState) (sid : String) (now : Time) (subId : String) :
    ∀ sub ∈ (clearFailureReason (stampLastRefill s sid now) subId).subscriptions,
      sub.stripe_subscription_id = sid → sub.last_monthly_refill = some now := by
  intro sub hsub hs
  rcases List.mem_map.mp hsub with ⟨a, ha, rfl⟩
  rcases List.mem_map.mp ha with ⟨b, hb, rfl⟩
  by_cases hc : (b.stripe_subscription_id == sid) = true
  · rw [if_pos hc]
    dsimp only
    by_cases hc2 : (b.id == subId) = true
    · rw [if_pos hc2]
    · rw [if_neg hc2]
  · rw [if_neg hc] at hs ⊢
    by_cases hc2 : (b.id == subId) = true
    · rw [if_pos hc2] at hs
      dsimp only at hs
      exact absurd (beq_iff_eq.mpr hs) (by simpa using hc)
    · rw [if_neg hc2] at hs
      exact absurd (beq_iff_eq.mpr hs) (by simpa using hc)

/-- Claim C7: for a yearly plan (price interval "year") on a paid invoice,
(i) billing reason `subscription_create` or `subscription_update` grants
exactly `monthly_refill_tokens` in one batch expiring one month from now
and stamps `last_monthly_refill = now` on the subscription, and (ii) a
paid yearly `subscription_cycle` invoice credits nothing and leaves the
state untouched (the renewal refills belong to the maintenance worker).
Clause (i) is stated for a first delivery (no batch for the invoice id
yet) with no pending referral for the resolved user. -/
theorem yearly_invoice_credit_policy :
    (∀ (refAmount : Int) (s : DbState) (now : Time) (n1 n2 : String) (tokens m : Int)
       (sid uid invId br : String) (lpe spe : Option Time) (localSub : Subscription),
      (br = "subscription_create" ∨ br = "subscription_update") →
      0 < m →
      s.subscriptions.find? (fun sub => sub.stripe_subscription_id == sid) = some localSub →
      s.batches.find? (fun b => b.invoice_id == some invId) = none →
      s.referrals.find? (fun r => r.referred_user_id == uid && !r.is_rewarded) = none →
      (handleInvoicePaid refAmount s
          ⟨invId, "paid", br, "year", some sid, some uid, some (tokens, some m), lpe, spe⟩
          now n1 n2).1 = .ok ∧
      (handleInvoicePaid refAmount s
          ⟨invId, "paid", br, "year", some sid, some uid, some (tokens, some m), lpe, spe⟩
          now n1 n2).2.batches
        = s.batches ++ [⟨n1, uid, "subscription", some localSub.id, none, some invId, m, 0, 0,
            addMonth now, true, "invoice:" ++ invId ++ " | first-month-yearly"⟩] ∧
      (∀ sub ∈ (handleInvoicePaid refAmount s
          ⟨invId, "paid", br, "year", some sid, some uid, some (tokens, some m), lpe, spe⟩
          now n1 n2).2.subscriptions,
        sub.stripe_subscription_id = sid → sub.last_monthly_refill = some now)) ∧
    (∀ (refAmount : Int) (s : DbState) (now : Time) (n1 n2 : String) (pr : Int × Option Int)
       (sid uid invId : String) (lpe spe : Option Time),
      handleInvoicePaid refAmount s
          ⟨invId, "paid", "subscription_cycle", "year", some sid, some uid, some pr, lpe, spe⟩
          now n1 n2 = (.skipped, s)) := by
  constructor
  · intro refAmount s now n1 n2 tokens m sid uid invId br lpe spe localSub hbr hm hfind
      hclean href
    have hstamp : (stampLastRefill s sid now).subscriptions.find?
        (fun sub => sub.stripe_subscription_id == sid)
        = some { localSub with last_monthly_refill := some now } := by
      rw [find?_stampLastRefill, hfind]
      rfl
    have hnotex : ¬∃ x ∈ (clearFailureReason (stampLastRefill s sid now)
        ({ localSub with last_monthly_refill := some now } : Subscription).id).batches,
        x.invoice_id = some invId := by
      rw [List.find?_eq_none] at hclean
      rintro ⟨x, hx, hxi⟩
      exact absurd (beq_iff_eq.mpr hxi) (by simpa using hclean x hx)
    rcases hbr with rfl | rfl
    · have hres : handleInvoicePaid refAmount s
          ⟨invId, "paid", "subscription_create", "year", some sid, some uid,
           some (tokens, some m), lpe, spe⟩ now n1 n2
          = (.ok, setUserCredited
              (insertCreditBatch (clearFailureReason (stampLastRefill s sid now) localSub.id)
                uid localSub.id invId m (addExpiry now "monthly") n1
                "subscription_initial_credit"
                ("invoice:" ++ invId ++ " | first-month-yearly")) uid) := by
        simp only [handleInvoicePaid, creditPaidInvoice, dbCycleFromStripe]
        simp
        rw [if_neg (show ¬ m ≤ 0 by omega), hstamp]
        dsimp only
        rw [if_neg hnotex]
        rw [handleReferralReward_no_pending
          (setUserCredited
            (insertCreditBatch (clearFailureReason (stampLastRefill s sid now) localSub.id)
              uid localSub.id invId m (addExpiry now "monthly") n1
              "subscription_initial_credit"
              ("invoice:" ++ invId ++ " | first-month-yearly")) uid)
          uid refAmount n2 now href]
      refine ⟨by rw [hres], by rw [hres]; rfl, ?_⟩
      rw [hres]
      exact stamped_refill_set s sid now localSub.id
    · have hres : handleInvoicePaid refAmount s
          ⟨invId, "paid", "subscription_update", "year", some sid, some uid,
           some (tokens, some m), lpe, spe⟩ now n1 n2
          = (.ok, setUserCredited
              (insertCreditBatch (clearFailureReason (stampLastRefill s sid now) localSub.id)
                uid localSub.id invId m (addExpiry now "monthly") n1
                "subscription_upgrade_credit"
                ("invoice:" ++ invId ++ " | first-month-yearly")) uid) := by
        simp only [handleInvoicePaid, creditPaidInvoice, dbCycleFromStripe]
        simp
        rw [if_neg (show ¬ m ≤ 0 by omega), hstamp]
        dsimp only
        rw [if_neg hnotex]
      refine ⟨by rw [hres], by rw [hres]; rfl, ?_⟩
      rw [hres]
      exact stamped_refill_set s sid now localSub.id
  · intro refAmount s now n1 n2 pr sid uid invId lpe spe
    rfl

/-- Witness for C7 at the concrete yearly scenario: the creation invoice
credits and the renewal invoice is a strict no-op. -/
theorem yearly_invoice_credit_policy_witness :
    (handleInvoicePaid 0 invDb
        ⟨"in_1", "paid", "subscription_create", "year", some "sub_1", some "u1",
         some (12000, some 1000), none, none⟩ ⟨24, 1⟩ "nb1" "nrb1").1 = .ok ∧
    handleInvoicePaid 0 invDb
        ⟨"in_2", "paid", "subscription_cycle", "year", some "sub_1", some "u1",
         some (12000, some 1000), none, none⟩ ⟨24, 1⟩ "nb1" "nrb1" = (.skipped, invDb) :=
  ⟨(yearly_invoice_credit_policy.1 0 invDb ⟨24, 1⟩ "nb1" "nrb1" 12000 1000 "sub_1" "u1"
      "in_1" "subscription_create" none none yearlySub (Or.inl rfl) (by decide) (by decide)
      (by decide) (by decide)).1,
   yearly_invoice_credit_policy.2 0 invDb ⟨24, 1⟩ "nb1" "nrb1" (12000, some 1000) "sub_1"
      "u1" "in_2" none none⟩

end Liquid
